import Mathlib

/-!
Verification development for the `clocks` module of the yb_stats repository
(src/src/clocks.rs): concurrent multi-host collection of the tablet-server
clocks diagnostic page, fault-tolerant HTML table extraction, header-driven
field mapping, and leader-relative rendering.

Embedding choices, stated once:

* The HTML string parser (`scraper::Html::parse_fragment`, backed by
  html5ever) is an external library.  We embed the document it produces as a
  DOM tree `HNode` (elements with a tag and children, and text nodes holding
  their serialized form), and embed the repository's own selection logic
  (`find_table`) over that tree: CSS selection by tag name in document order,
  `inner_html` as re-serialization of a node's children, `trim` as whitespace
  trimming.
* The `soup` library's `Soup::new(s).text()` call (used to strip embedded
  markup from the server cell) is likewise external; `soupText` models it
  from the spec's words: embedded markup is stripped to plain text, i.e. tag
  spans delimited by < and > are removed and the text between them kept.
* The reachability probe (`scan_host_port`) and HTTP fetch (`http_get`) are
  external collaborators; `read_http` and `read_clocks` take them as function
  parameters.  The fetch parameter returns the already-parsed document (the
  composition of the HTTP GET and the external HTML parse); an unreachable
  host yields the parse of the empty string, an empty fragment.
* `read_clocks` fans tasks out over a rayon pool and collects results over an
  mpsc channel; arrival order is arbitrary.  The embedding collects in task
  order (host-major, port-minor, as the spawn loops enumerate); every
  property proved about it (task count, record count, labeling) is invariant
  under permutation of the collected records.
* The per-task collection timestamp (`Local::now()`) is modelled as an
  external clock collaborator returning an opaque `Nat`.
-/

/-- A node of the DOM produced by the external HTML parser: an element with a
tag name and children, or a text node holding its serialized text. -/
inductive HNode where
  | elem (tag : String) (children : List HNode)
  | txt (s : String)

mutual

/-- Serialization of one node back to HTML text (attributes are not part of
the model).  Used to embed `ElementRef::inner_html`. -/
def HNode.render : HNode → String
  | .txt s => s
  | .elem tag children => "<" ++ tag ++ ">" ++ HNode.renderList children ++ "</" ++ tag ++ ">"

/-- Serialization of a list of sibling nodes. -/
def HNode.renderList : List HNode → String
  | [] => ""
  | n :: ns => HNode.render n ++ HNode.renderList ns

end

/-- The `inner_html` of a node: the serialization of its children. -/
def HNode.innerHtml : HNode → String
  | .txt s => s
  | .elem _ children => HNode.renderList children

mutual

/-- All elements with the given tag in the subtree rooted at this node,
including the node itself, in document (preorder) order.  Embeds what a CSS
tag selector matches. -/
def HNode.selectNode (tag : String) : HNode → List HNode
  | .txt _ => []
  | .elem t children =>
      (if t = tag then [HNode.elem t children] else []) ++ HNode.selectList tag children

/-- All elements with the given tag under a list of sibling subtrees, in
document order. -/
def HNode.selectList (tag : String) : List HNode → List HNode
  | [] => []
  | n :: ns => HNode.selectNode tag n ++ HNode.selectList tag ns

end

/-- `node.select(tag)`: all matching elements strictly below `node`, in
document order.  (scraper's `select` matches descendants, not the node
itself; for the parsed fragment the root is the synthetic wrapper element, so
selecting on the document searches the whole tree.) -/
def HNode.select (tag : String) : HNode → List HNode
  | .txt _ => []
  | .elem _ children => HNode.selectList tag children

/-- The parse of an empty HTTP response body: a fragment with no content. -/
def emptyFragment : HNode := .elem "html" []

/-- One parsed row of the clocks table (struct `Clocks` in clocks.rs). -/
structure Clocks where
  server : String
  time_since_heartbeat : String
  status_uptime : String
  physical_time_utc : String
  hybrid_time_utc : String
  heartbeat_rtt : String
  cloud : String
  region : String
  zone : String
deriving DecidableEq

/-- A `Clocks` row tagged with its originating "host:port" label and the
collection timestamp (struct `StoredClocks` in clocks.rs; the timestamp is an
opaque reading of the external clock). -/
structure StoredClocks where
  hostname_port : String
  timestamp : Nat
  server : String
  time_since_heartbeat : String
  status_uptime : String
  physical_time_utc : String
  hybrid_time_utc : String
  heartbeat_rtt : String
  cloud : String
  region : String
  zone : String
deriving DecidableEq

namespace AllStoredClocks

/-- Modelled from Rust's `str::trim` (standard library, external to this
repository): the string with surrounding whitespace removed, written as
structural recursion over the character list so that concrete tables
evaluate inside the kernel. -/
def trimString (s : String) : String :=
  String.mk (((s.toList.dropWhile Char.isWhitespace).reverse.dropWhile
    Char.isWhitespace).reverse)

/-- Embeds the `get_cells` closure of `find_table`: the cells of `row`
matching `cellSelector`, each taken as trimmed `inner_html`. -/
def get_cells (row : HNode) (cellSelector : String) : List String :=
  (row.select cellSelector).map (fun cell => trimString cell.innerHtml)

/-- Embeds `find_table`: the first table of the document, its first `tr`'s
`th` cells as headers, the remaining `tr`s' `td` cells as rows; `none` when
there is no table or the table holds no `tr`. -/
def find_table (doc : HNode) : Option (List String × List (List String)) := do
  let table ← (doc.select "table").head?
  let trs := table.select "tr"
  let headRow ← trs.head?
  let headers := get_cells headRow "th"
  let rows := (trs.drop 1).map (fun row => get_cells row "td")
  return (headers, rows)

/-- Embeds `Iterator::position` as used by the `try_find_header` closure:
the index of the first element satisfying the predicate. -/
def position (p : String → Bool) : List String → Option Nat
  | [] => none
  | x :: xs => if p x then some 0 else (position p xs).map (· + 1)

/-- The `try_find_header` closure: index of the first header equal to the
target string. -/
def try_find_header (headers : List String) (target : String) : Option Nat :=
  position (fun h => h == target) headers

/-- Embeds the `take_or_missing` closure.  `row.get_mut(pos)` succeeds only
in range; `std::mem::take(value)` moves the cell out and leaves the empty
string behind, so the result pairs the taken value with the updated row. -/
def take_or_missing (row : List String) (pos : Option Nat) : String × List String :=
  match pos with
  | none => ("<Missing>", row)
  | some p =>
      match row[p]? with
      | none => ("<Missing>", row)
      | some value => (value, row.set p "")

/-- Modelled from the spec: the external soup library's text extraction,
"embedded markup stripped to plain text".  The boolean tracks whether the
scan is inside a tag span. -/
def soupTextAux : List Char → Bool → List Char
  | [], _ => []
  | c :: cs, true => if c = '>' then soupTextAux cs false else soupTextAux cs true
  | c :: cs, false => if c = '<' then soupTextAux cs true else c :: soupTextAux cs false

/-- Modelled from the spec: `Soup::new(s).text()` — the text left after
stripping embedded markup. -/
def soupText (s : String) : String := String.mk (soupTextAux s.toList false)

/-- The body of `parse_clocks`' per-row loop: nine sequential
`take_or_missing` calls threading the mutated row, the server value passed
through the soup text extraction. -/
def parseRow (headers : List String) (row : List String) : Clocks :=
  let server_pos := try_find_header headers "Server"
  let time_since_heartbeat_pos := try_find_header headers "Time since <br>heartbeat"
  let status_uptime_pos := try_find_header headers "Status &amp; Uptime"
  let physical_time_utc_pos := try_find_header headers "Physical Time (UTC)"
  let hybrid_time_utc_pos := try_find_header headers "Hybrid Time (UTC)"
  let heartbeat_rtt_pos := try_find_header headers "Heartbeat RTT"
  let cloud_pos := try_find_header headers "Cloud"
  let region_pos := try_find_header headers "Region"
  let zone_pos := try_find_header headers "Zone"
  let t1 := take_or_missing row server_pos
  let t2 := take_or_missing t1.2 time_since_heartbeat_pos
  let t3 := take_or_missing t2.2 status_uptime_pos
  let t4 := take_or_missing t3.2 physical_time_utc_pos
  let t5 := take_or_missing t4.2 hybrid_time_utc_pos
  let t6 := take_or_missing t5.2 heartbeat_rtt_pos
  let t7 := take_or_missing t6.2 cloud_pos
  let t8 := take_or_missing t7.2 region_pos
  let t9 := take_or_missing t8.2 zone_pos
  { server := soupText t1.1
    time_since_heartbeat := t2.1
    status_uptime := t3.1
    physical_time_utc := t4.1
    hybrid_time_utc := t5.1
    heartbeat_rtt := t6.1
    cloud := t7.1
    region := t8.1
    zone := t9.1 }

/-- Embeds `parse_clocks`: extract the first table and map each row to a
`Clocks` record; no table yields no records. -/
def parse_clocks (doc : HNode) : List Clocks :=
  match find_table doc with
  | none => []
  | some (headers, rows) => rows.map (fun row => parseRow headers row)

/-- Embeds `read_http`: probe the host, fetch-and-parse the clocks page when
reachable (the fetch collaborator returns the parsed document), fall back to
the parse of the empty body otherwise, then parse the table. -/
def read_http (probe : String → String → Bool)
    (fetch : String → String → String → HNode)
    (host port : String) : List Clocks :=
  let data_from_http :=
    if probe host port then fetch host port "tablet-server-clocks?raw" else emptyFragment
  parse_clocks data_from_http

/-- The task list the spawn loops of `read_clocks` enumerate: one task per
(host, port) pair, host-major. -/
def tasks (hosts ports : List String) : List (String × String) :=
  hosts.flatMap (fun host => ports.map (fun port => (host, port)))

/-- Embeds `read_clocks`' fan-out/fan-in: every task contributes its parsed
rows tagged with its "host:port" label and its clock reading; records are
gathered in task order (channel arrival order is arbitrary; the properties
proved below are order-invariant). -/
def read_clocks (probe : String → String → Bool)
    (fetch : String → String → String → HNode)
    (now : String → String → Nat)
    (hosts ports : List String) : List StoredClocks :=
  (tasks hosts ports).flatMap (fun hp =>
    let detail_snapshot_time := now hp.1 hp.2
    (read_http probe fetch hp.1 hp.2).map (fun clock =>
      { hostname_port := hp.1 ++ ":" ++ hp.2
        timestamp := detail_snapshot_time
        server := clock.server
        time_since_heartbeat := clock.time_since_heartbeat
        status_uptime := clock.status_uptime
        physical_time_utc := clock.physical_time_utc
        hybrid_time_utc := clock.hybrid_time_utc
        heartbeat_rtt := clock.heartbeat_rtt
        cloud := clock.cloud
        region := clock.region
        zone := clock.zone }))

/-- The nine record fields of one row, space-separated, in declaration
order — the `"{} {} {} {} {} {} {} {} {}"` layout shared by the non-detail
branches of `print` and `print_adhoc`. -/
def fieldsLine (row : StoredClocks) : String :=
  row.server ++ " " ++ row.time_since_heartbeat ++ " " ++ row.status_uptime ++ " " ++
    row.physical_time_utc ++ " " ++ row.hybrid_time_utc ++ " " ++ row.heartbeat_rtt ++ " " ++
    row.cloud ++ " " ++ row.region ++ " " ++ row.zone

/-- Embeds `print` (leader resolved from a stored snapshot by the external
leader locator and passed in): the sequence of lines written to stdout.  Each
row is tested by the two independent `if`s of the loop body. -/
def print (stored_clocks : List StoredClocks) (leader_hostname : String)
    (details_enable : Bool) : List String :=
  stored_clocks.flatMap (fun row =>
    (if row.hostname_port == leader_hostname && !details_enable
      then [fieldsLine row] else []) ++
    (if details_enable
      then [row.hostname_port ++ ": " ++ fieldsLine row] else []))

/-- Embeds `print_adhoc` (leader resolved live by the external leader
locator and passed in): the sequence of lines written to stdout.  The detail
branch separates the label from the fields with a space, not a colon. -/
def print_adhoc (stored_clocks : List StoredClocks) (leader_hostname : String)
    (details_enable : Bool) : List String :=
  stored_clocks.flatMap (fun row =>
    (if row.hostname_port == leader_hostname && !details_enable
      then [fieldsLine row] else []) ++
    (if details_enable
      then [row.hostname_port ++ " " ++ fieldsLine row] else []))

/-- Embeds `row.server.split_whitespace().next().unwrap_or_default()`:
skip leading whitespace, then take the run of non-whitespace characters;
the empty string when none exists. -/
def firstTokenAux : List Char → List Char
  | [] => []
  | c :: cs =>
      if c.isWhitespace then firstTokenAux cs
      else c :: cs.takeWhile (fun d => !d.isWhitespace)

/-- The first whitespace-delimited token of a string, or `""`. -/
def firstToken (s : String) : String := String.mk (firstTokenAux s.toList)

/-- The `"{} -> {}: {} RTT ({} {} {})"` layout of `print_adhoc_latency`. -/
def latencyLine (leader_hostname : String) (row : StoredClocks) : String :=
  leader_hostname ++ " -> " ++ firstToken row.server ++ ": " ++ row.heartbeat_rtt ++
    " RTT (" ++ row.cloud ++ " " ++ row.region ++ " " ++ row.zone ++ ")"

/-- Embeds `print_adhoc_latency`: the sequence of lines written to stdout. -/
def print_adhoc_latency (stored_clocks : List StoredClocks) (leader_hostname : String)
    (details_enable : Bool) : List String :=
  stored_clocks.flatMap (fun row =>
    (if row.hostname_port == leader_hostname && !details_enable
      then [latencyLine leader_hostname row] else []) ++
    (if details_enable
      then [row.hostname_port ++ " " ++ latencyLine leader_hostname row] else []))

/-- The cell a resolved column position selects in the original (unmutated)
row, or the sentinel: what each field of `parseRow` turns out to hold. -/
def cellOrMissing (row : List String) (pos : Option Nat) : String :=
  (pos.bind (fun p => row[p]?)).getD "<Missing>"

/-- The field-by-field reading of one row directly off the original row:
the pure characterization `parseRow_eq` proves of `parseRow`. -/
def parseRowPure (headers : List String) (row : List String) : Clocks :=
  { server := soupText (cellOrMissing row (try_find_header headers "Server"))
    time_since_heartbeat :=
      cellOrMissing row (try_find_header headers "Time since <br>heartbeat")
    status_uptime := cellOrMissing row (try_find_header headers "Status &amp; Uptime")
    physical_time_utc := cellOrMissing row (try_find_header headers "Physical Time (UTC)")
    hybrid_time_utc := cellOrMissing row (try_find_header headers "Hybrid Time (UTC)")
    heartbeat_rtt := cellOrMissing row (try_find_header headers "Heartbeat RTT")
    cloud := cellOrMissing row (try_find_header headers "Cloud")
    region := cellOrMissing row (try_find_header headers "Region")
    zone := cellOrMissing row (try_find_header headers "Zone") }

/-- The row count of the table extracted from a document: zero when
`find_table` finds none. -/
def extractedRowCount (doc : HNode) : Nat :=
  match find_table doc with
  | none => 0
  | some (_, rows) => rows.length

/-- The document one task fetches: the parsed body when the probe succeeds,
the parse of the empty body otherwise. -/
def fetchedDoc (probe : String → String → Bool)
    (fetch : String → String → String → HNode) (host port : String) : HNode :=
  if probe host port then fetch host port "tablet-server-clocks?raw" else emptyFragment

/-- A clocks table whose header row lacks the "Server" column: one
"Heartbeat RTT" column with one data row. -/
def missingServerDoc : HNode :=
  .elem "html" [.elem "table" [
    .elem "tr" [.elem "th" [.txt "Heartbeat RTT"]],
    .elem "tr" [.elem "td" [.txt "0.5ms"]]]]

/-- A clocks table whose data row is shorter than its header row: headers
"Cloud", "Server", one data row with a single cell, so the Server column's
resolved index 1 lies beyond the row's last cell. -/
def shortRowDoc : HNode :=
  .elem "html" [.elem "table" [
    .elem "tr" [.elem "th" [.txt "Cloud"], .elem "th" [.txt "Server"]],
    .elem "tr" [.elem "td" [.txt "aws"]]]]

/-- A document with two tables, the second nested inside the first table's
data cell. -/
def nestedTablesDoc : HNode :=
  .elem "html" [.elem "table" [
    .elem "tr" [.elem "th" [.txt "Server"]],
    .elem "tr" [.elem "td" [.elem "table" [.elem "tr" [.elem "td" [.txt "X"]]]]]]]

/-- `nestedTablesDoc` with the nested (second) table removed and nothing
else changed. -/
def nestedTablesDocPruned : HNode :=
  .elem "html" [.elem "table" [
    .elem "tr" [.elem "th" [.txt "Server"]],
    .elem "tr" [.elem "td" []]]]

lemma position_some {p : String → Bool} : ∀ {l : List String} {i : Nat},
    position p l = some i → ∃ x, l[i]? = some x ∧ p x = true := by
  intro l
  induction l with
  | nil => intro i h; simp [position] at h
  | cons x xs ih =>
    intro i h
    rw [position] at h
    by_cases hx : p x
    · rw [if_pos hx] at h
      cases h
      exact ⟨x, by simp, hx⟩
    · rw [if_neg hx] at h
      cases hpos : position p xs with
      | none => rw [hpos] at h; simp at h
      | some j =>
        rw [hpos] at h
        simp only [Option.map_some'] at h
        obtain ⟨y, hy, hpy⟩ := ih hpos
        cases h
        exact ⟨y, by simpa using hy, hpy⟩

lemma try_find_header_ne {headers : List String} {t1 t2 : String} {q : Nat}
    (hne : t1 ≠ t2) (h1 : try_find_header headers t1 = some q) :
    try_find_header headers t2 ≠ some q := by
  intro h2
  obtain ⟨x, hx, hbx⟩ := position_some h1
  obtain ⟨y, hy, hby⟩ := position_some h2
  rw [hx] at hy
  cases hy
  exact hne ((eq_of_beq hbx).symm.trans (eq_of_beq hby))

lemma take_or_missing_fst (row : List String) (pos : Option Nat) :
    (take_or_missing row pos).1 = cellOrMissing row pos := by
  cases pos with
  | none => rfl
  | some p =>
    cases h : row[p]? with
    | none => simp [take_or_missing, cellOrMissing, h]
    | some v => simp [take_or_missing, cellOrMissing, h]

lemma take_or_missing_snd_get? (row : List String) (pos : Option Nat) (q : Nat)
    (h : pos ≠ some q) : (take_or_missing row pos).2[q]? = row[q]? := by
  cases pos with
  | none => rfl
  | some p =>
    cases hg : row[p]? with
    | none => simp [take_or_missing, hg]
    | some v =>
      have hpq : p ≠ q := fun e => h (by rw [e])
      simp only [take_or_missing, hg]
      exact List.getElem?_set_ne hpq

lemma take_or_missing_fst_of_get? {row row' : List String} {pos : Option Nat}
    (h : ∀ q, pos = some q → row'[q]? = row[q]?) :
    (take_or_missing row' pos).1 = cellOrMissing row pos := by
  rw [take_or_missing_fst]
  cases pos with
  | none => rfl
  | some q => simp [cellOrMissing, h q rfl]

/-- The mem::take threading of `parseRow` never lets one field's extraction
disturb another's: because the nine expected header names are pairwise
distinct, their resolved positions are pairwise distinct, so every field
reads its cell from the original row. -/
theorem parseRow_eq (headers row : List String) :
    parseRow headers row = parseRowPure headers row := by
  have hne : ∀ t1 t2 : String, ∀ q : Nat, t1 ≠ t2 →
      try_find_header headers t1 = some q → try_find_header headers t2 ≠ some q :=
    fun _ _ _ h h1 => try_find_header_ne h h1
  simp only [parseRow, parseRowPure, Clocks.mk.injEq]
  refine ⟨?_, ?_, ?_, ?_, ?_, ?_, ?_, ?_, ?_⟩
  · exact congrArg soupText (take_or_missing_fst_of_get? (fun q _ => rfl))
  · refine take_or_missing_fst_of_get? (fun q hq => ?_)
    rw [take_or_missing_snd_get? _ _ _ (hne "Time since <br>heartbeat" "Server" q (by decide) hq)]
  · refine take_or_missing_fst_of_get? (fun q hq => ?_)
    rw [take_or_missing_snd_get? _ _ _ (hne "Status &amp; Uptime" "Time since <br>heartbeat" q (by decide) hq),
      take_or_missing_snd_get? _ _ _ (hne "Status &amp; Uptime" "Server" q (by decide) hq)]
  · refine take_or_missing_fst_of_get? (fun q hq => ?_)
    rw [take_or_missing_snd_get? _ _ _ (hne "Physical Time (UTC)" "Status &amp; Uptime" q (by decide) hq),
      take_or_missing_snd_get? _ _ _ (hne "Physical Time (UTC)" "Time since <br>heartbeat" q (by decide) hq),
      take_or_missing_snd_get? _ _ _ (hne "Physical Time (UTC)" "Server" q (by decide) hq)]
  · refine take_or_missing_fst_of_get? (fun q hq => ?_)
    rw [take_or_missing_snd_get? _ _ _ (hne "Hybrid Time (UTC)" "Physical Time (UTC)" q (by decide) hq),
      take_or_missing_snd_get? _ _ _ (hne "Hybrid Time (UTC)" "Status &amp; Uptime" q (by decide) hq),
      take_or_missing_snd_get? _ _ _ (hne "Hybrid Time (UTC)" "Time since <br>heartbeat" q (by decide) hq),
      take_or_missing_snd_get? _ _ _ (hne "Hybrid Time (UTC)" "Server" q (by decide) hq)]
  · refine take_or_missing_fst_of_get? (fun q hq => ?_)
    rw [take_or_missing_snd_get? _ _ _ (hne "Heartbeat RTT" "Hybrid Time (UTC)" q (by decide) hq),
      take_or_missing_snd_get? _ _ _ (hne "Heartbeat RTT" "Physical Time (UTC)" q (by decide) hq),
      take_or_missing_snd_get? _ _ _ (hne "Heartbeat RTT" "Status &amp; Uptime" q (by decide) hq),
      take_or_missing_snd_get? _ _ _ (hne "Heartbeat RTT" "Time since <br>heartbeat" q (by decide) hq),
      take_or_missing_snd_get? _ _ _ (hne "Heartbeat RTT" "Server" q (by decide) hq)]
  · refine take_or_missing_fst_of_get? (fun q hq => ?_)
    rw [take_or_missing_snd_get? _ _ _ (hne "Cloud" "Heartbeat RTT" q (by decide) hq),
      take_or_missing_snd_get? _ _ _ (hne "Cloud" "Hybrid Time (UTC)" q (by decide) hq),
      take_or_missing_snd_get? _ _ _ (hne "Cloud" "Physical Time (UTC)" q (by decide) hq),
      take_or_missing_snd_get? _ _ _ (hne "Cloud" "Status &amp; Uptime" q (by decide) hq),
      take_or_missing_snd_get? _ _ _ (hne "Cloud" "Time since <br>heartbeat" q (by decide) hq),
      take_or_missing_snd_get? _ _ _ (hne "Cloud" "Server" q (by decide) hq)]
  · refine take_or_missing_fst_of_get? (fun q hq => ?_)
    rw [take_or_missing_snd_get? _ _ _ (hne "Region" "Cloud" q (by decide) hq),
      take_or_missing_snd_get? _ _ _ (hne "Region" "Heartbeat RTT" q (by decide) hq),
      take_or_missing_snd_get? _ _ _ (hne "Region" "Hybrid Time (UTC)" q (by decide) hq),
      take_or_missing_snd_get? _ _ _ (hne "Region" "Physical Time (UTC)" q (by decide) hq),
      take_or_missing_snd_get? _ _ _ (hne "Region" "Status &amp; Uptime" q (by decide) hq),
      take_or_missing_snd_get? _ _ _ (hne "Region" "Time since <br>heartbeat" q (by decide) hq),
      take_or_missing_snd_get? _ _ _ (hne "Region" "Server" q (by decide) hq)]
  · refine take_or_missing_fst_of_get? (fun q hq => ?_)
    rw [take_or_missing_snd_get? _ _ _ (hne "Zone" "Region" q (by decide) hq),
      take_or_missing_snd_get? _ _ _ (hne "Zone" "Cloud" q (by decide) hq),
      take_or_missing_snd_get? _ _ _ (hne "Zone" "Heartbeat RTT" q (by decide) hq),
      take_or_missing_snd_get? _ _ _ (hne "Zone" "Hybrid Time (UTC)" q (by decide) hq),
      take_or_missing_snd_get? _ _ _ (hne "Zone" "Physical Time (UTC)" q (by decide) hq),
      take_or_missing_snd_get? _ _ _ (hne "Zone" "Status &amp; Uptime" q (by decide) hq),
      take_or_missing_snd_get? _ _ _ (hne "Zone" "Time since <br>heartbeat" q (by decide) hq),
      take_or_missing_snd_get? _ _ _ (hne "Zone" "Server" q (by decide) hq)]
lemma find_table_of_no_table {doc : HNode} (h : doc.select "table" = []) :
    find_table doc = none := by
  simp [find_table, h]

lemma parse_clocks_of_find_table {doc : HNode} {headers : List String}
    {rows : List (List String)} (h : find_table doc = some (headers, rows)) :
    parse_clocks doc = rows.map (fun row => parseRow headers row) := by
  simp [parse_clocks, h]

lemma parse_clocks_length (doc : HNode) :
    (parse_clocks doc).length = extractedRowCount doc := by
  cases h : find_table doc with
  | none => simp [parse_clocks, extractedRowCount, h]
  | some t => cases t with
    | mk headers rows => simp [parse_clocks, extractedRowCount, h]

lemma read_http_eq (probe : String → String → Bool)
    (fetch : String → String → String → HNode) (host port : String) :
    read_http probe fetch host port = parse_clocks (fetchedDoc probe fetch host port) := rfl

lemma read_http_length (probe : String → String → Bool)
    (fetch : String → String → String → HNode) (host port : String) :
    (read_http probe fetch host port).length =
      extractedRowCount (fetchedDoc probe fetch host port) := by
  rw [read_http_eq, parse_clocks_length]

lemma selectList_append (tag : String) (l1 l2 : List HNode) :
    HNode.selectList tag (l1 ++ l2) = HNode.selectList tag l1 ++ HNode.selectList tag l2 := by
  induction l1 with
  | nil => simp [HNode.selectList]
  | cons n ns ih => simp [HNode.selectList, ih]

/-- C1: for every list of H hosts and P ports, `read_clocks` processes
exactly H×P (host, port) tasks; the total record count equals the sum over
all addresses of the row count of that address's extracted table, which is
zero for an unreachable address; and every produced record carries the
"host:port" label of the address whose fetch produced it, with all nine
fields copied from that address's parsed row. -/
theorem read_clocks_task_count_and_labels (probe : String → String → Bool)
    (fetch : String → String → String → HNode) (now : String → String → Nat)
    (hosts ports : List String) :
    (tasks hosts ports).length = hosts.length * ports.length ∧
    (read_clocks probe fetch now hosts ports).length =
      ((tasks hosts ports).map
        (fun hp => extractedRowCount (fetchedDoc probe fetch hp.1 hp.2))).sum ∧
    (∀ host port, probe host port = false →
      extractedRowCount (fetchedDoc probe fetch host port) = 0) ∧
    ∀ r ∈ read_clocks probe fetch now hosts ports,
      ∃ hp ∈ tasks hosts ports, r.hostname_port = hp.1 ++ ":" ++ hp.2 ∧
        ∃ c ∈ read_http probe fetch hp.1 hp.2,
          r.server = c.server ∧ r.time_since_heartbeat = c.time_since_heartbeat ∧
          r.status_uptime = c.status_uptime ∧ r.physical_time_utc = c.physical_time_utc ∧
          r.hybrid_time_utc = c.hybrid_time_utc ∧ r.heartbeat_rtt = c.heartbeat_rtt ∧
          r.cloud = c.cloud ∧ r.region = c.region ∧ r.zone = c.zone := by
  refine ⟨?_, ?_, ?_, ?_⟩
  · induction hosts with
    | nil => simp [tasks]
    | cons h hs ih =>
      simp only [tasks, List.flatMap_cons, List.length_append, List.length_map] at ih ⊢
      rw [ih]
      simp only [List.length_cons]
      ring
  · simp [read_clocks, List.length_flatMap, Function.comp_def, read_http_length]
  · intro host port hp
    simp only [fetchedDoc, hp, if_neg, Bool.false_eq_true, not_false_iff]
    rfl
  · intro r hr
    rw [read_clocks] at hr
    obtain ⟨hp, hhp, hr2⟩ := List.mem_flatMap.mp hr
    obtain ⟨c, hc, hrc⟩ := List.mem_map.mp hr2
    exact ⟨hp, hhp, by rw [← hrc], c, hc, by rw [← hrc], by rw [← hrc], by rw [← hrc],
      by rw [← hrc], by rw [← hrc], by rw [← hrc], by rw [← hrc], by rw [← hrc],
      by rw [← hrc]⟩

/-- C3: a document without a table element parses to zero records; table
extraction degrades to `none` and the caller sees an empty record list, not
an error. -/
theorem parse_clocks_no_table (doc : HNode) (h : doc.select "table" = []) :
    parse_clocks doc = [] := by
  simp [parse_clocks, find_table_of_no_table h]

/-- Witness for C3 at a concrete table-less document. -/
theorem parse_clocks_no_table_witness :
    parse_clocks (HNode.elem "html" [HNode.txt "no tables here"]) = [] :=
  parse_clocks_no_table (HNode.elem "html" [HNode.txt "no tables here"]) rfl

/-- C2 (evaluation at the failing input): with the "Server" header absent
from the table, every other expected-but-absent column resolves to the
literal sentinel and the row is not rejected — but the server field itself
becomes the empty string, because `parse_clocks` routes `take_or_missing`'s
"<Missing>" sentinel through the soup markup stripper, which consumes it as
a tag. -/
theorem parse_clocks_missing_server_header_eval :
    parse_clocks missingServerDoc =
      [{ server := "", time_since_heartbeat := "<Missing>", status_uptime := "<Missing>",
         physical_time_utc := "<Missing>", hybrid_time_utc := "<Missing>",
         heartbeat_rtt := "0.5ms", cloud := "<Missing>", region := "<Missing>",
         zone := "<Missing>" }] := by decide

/-- C6 (evaluation at the failing input): a data row shorter than the header
row is not rejected — a record is still produced and the trailing absent
cells map to the sentinel — but when the out-of-range column is "Server"
the field becomes the empty string rather than "<Missing>", since the
sentinel passes through the soup markup stripper. -/
theorem parse_clocks_short_row_eval :
    parse_clocks shortRowDoc =
      [{ server := "", time_since_heartbeat := "<Missing>", status_uptime := "<Missing>",
         physical_time_utc := "<Missing>", hybrid_time_utc := "<Missing>",
         heartbeat_rtt := "<Missing>", cloud := "aws", region := "<Missing>",
         zone := "<Missing>" }] := by decide

/-- Counterexample to C7 as stated: a document holding two tables, the
second nested inside the first table's data cell, parses to two records —
the nested (subsequent, in document order) table's row does contribute a
record, as removing that table changes the result. -/
theorem parse_clocks_nested_table_cex :
    (nestedTablesDoc.select "table").length = 2 ∧
    (parse_clocks nestedTablesDoc).length = 2 ∧
    (parse_clocks nestedTablesDocPruned).length = 1 ∧
    parse_clocks nestedTablesDoc ≠ parse_clocks nestedTablesDocPruned := by decide

/-- C7 (amended): only the first table in document order is extracted, and
any content following the existing children — further sibling tables
included — contributes nothing, provided the document already holds a table
among those children; a table nested inside the first table is not covered
(its rows do contribute, as the counterexample shows). -/
theorem parse_clocks_first_table (tag : String) (cs extra : List HNode)
    (h : HNode.selectList "table" cs ≠ []) :
    parse_clocks (.elem tag (cs ++ extra)) = parse_clocks (.elem tag cs) := by
  cases hcs : HNode.selectList "table" cs with
  | nil => exact absurd hcs h
  | cons t ts =>
    simp [parse_clocks, find_table, HNode.select, selectList_append, hcs]

/-- Witness for the amended C7 at a concrete pair of sibling tables. -/
theorem parse_clocks_first_table_witness :
    parse_clocks (.elem "html"
        ([.elem "table" [.elem "tr" [.elem "th" [.txt "Server"]]]] ++
         [.elem "table" [.elem "tr" [.elem "th" [.txt "Other"]],
                         .elem "tr" [.elem "td" [.txt "y"]]]])) =
      parse_clocks (.elem "html" [.elem "table" [.elem "tr" [.elem "th" [.txt "Server"]]]]) :=
  parse_clocks_first_table "html"
    [.elem "table" [.elem "tr" [.elem "th" [.txt "Server"]]]]
    [.elem "table" [.elem "tr" [.elem "th" [.txt "Other"]],
                    .elem "tr" [.elem "td" [.txt "y"]]]]
    (by simp [HNode.selectList, HNode.selectNode])

lemma print_summary_eq (stored : List StoredClocks) (leader : String) :
    print stored leader false =
      (stored.filter (fun row => row.hostname_port == leader)).map fieldsLine := by
  induction stored with
  | nil => rfl
  | cons row rest ih =>
    simp only [print, List.flatMap_cons] at ih ⊢
    simp at ih ⊢
    by_cases hrow : row.hostname_port = leader
    · simp [List.filter_cons, hrow, ih]
    · simp [List.filter_cons, hrow, ih]

lemma print_detail_eq (stored : List StoredClocks) (leader : String) :
    print stored leader true =
      stored.map (fun row => row.hostname_port ++ ": " ++ fieldsLine row) := by
  induction stored with
  | nil => rfl
  | cons row rest ih =>
    simp only [print, List.flatMap_cons] at ih ⊢
    simp at ih ⊢
    exact ih

lemma print_adhoc_summary_eq (stored : List StoredClocks) (leader : String) :
    print_adhoc stored leader false =
      (stored.filter (fun row => row.hostname_port == leader)).map fieldsLine := by
  induction stored with
  | nil => rfl
  | cons row rest ih =>
    simp only [print_adhoc, List.flatMap_cons] at ih ⊢
    simp at ih ⊢
    by_cases hrow : row.hostname_port = leader
    · simp [List.filter_cons, hrow, ih]
    · simp [List.filter_cons, hrow, ih]

lemma print_adhoc_detail_eq (stored : List StoredClocks) (leader : String) :
    print_adhoc stored leader true =
      stored.map (fun row => row.hostname_port ++ " " ++ fieldsLine row) := by
  induction stored with
  | nil => rfl
  | cons row rest ih =>
    simp only [print_adhoc, List.flatMap_cons] at ih ⊢
    simp at ih ⊢
    exact ih

/-- C4: in summary mode only records whose address label equals the
leader's label are printed, one line per record, the nine fields
space-separated in the fixed order; in detail mode every record is printed,
prefixed by its address label (a ": " in `print`, a " " in `print_adhoc`),
with the same field order. -/
theorem print_modes_spec (stored : List StoredClocks) (leader : String) :
    print stored leader false =
      (stored.filter (fun row => row.hostname_port == leader)).map (fun row =>
        row.server ++ " " ++ row.time_since_heartbeat ++ " " ++ row.status_uptime ++ " " ++
          row.physical_time_utc ++ " " ++ row.hybrid_time_utc ++ " " ++ row.heartbeat_rtt ++
          " " ++ row.cloud ++ " " ++ row.region ++ " " ++ row.zone) ∧
    print stored leader true =
      stored.map (fun row =>
        row.hostname_port ++ ": " ++
          (row.server ++ " " ++ row.time_since_heartbeat ++ " " ++ row.status_uptime ++ " " ++
            row.physical_time_utc ++ " " ++ row.hybrid_time_utc ++ " " ++ row.heartbeat_rtt ++
            " " ++ row.cloud ++ " " ++ row.region ++ " " ++ row.zone)) ∧
    print_adhoc stored leader false =
      (stored.filter (fun row => row.hostname_port == leader)).map (fun row =>
        row.server ++ " " ++ row.time_since_heartbeat ++ " " ++ row.status_uptime ++ " " ++
          row.physical_time_utc ++ " " ++ row.hybrid_time_utc ++ " " ++ row.heartbeat_rtt ++
          " " ++ row.cloud ++ " " ++ row.region ++ " " ++ row.zone) ∧
    print_adhoc stored leader true =
      stored.map (fun row =>
        row.hostname_port ++ " " ++
          (row.server ++ " " ++ row.time_since_heartbeat ++ " " ++ row.status_uptime ++ " " ++
            row.physical_time_utc ++ " " ++ row.hybrid_time_utc ++ " " ++ row.heartbeat_rtt ++
            " " ++ row.cloud ++ " " ++ row.region ++ " " ++ row.zone)) :=
  ⟨print_summary_eq stored leader, print_detail_eq stored leader,
    print_adhoc_summary_eq stored leader, print_adhoc_detail_eq stored leader⟩

/-- C5: for every row of a parsed table, the server field of the produced
record is its cell's content with embedded markup stripped to plain text,
while every other field is its cell's text taken verbatim; and every row of
the extracted table produces exactly one record through this mapping. -/
theorem parse_clocks_cell_semantics (headers row : List String) :
    (∀ q v, try_find_header headers "Server" = some q → row[q]? = some v →
      (parseRow headers row).server = soupText v) ∧
    (∀ q v, try_find_header headers "Time since <br>heartbeat" = some q → row[q]? = some v →
      (parseRow headers row).time_since_heartbeat = v) ∧
    (∀ q v, try_find_header headers "Status &amp; Uptime" = some q → row[q]? = some v →
      (parseRow headers row).status_uptime = v) ∧
    (∀ q v, try_find_header headers "Physical Time (UTC)" = some q → row[q]? = some v →
      (parseRow headers row).physical_time_utc = v) ∧
    (∀ q v, try_find_header headers "Hybrid Time (UTC)" = some q → row[q]? = some v →
      (parseRow headers row).hybrid_time_utc = v) ∧
    (∀ q v, try_find_header headers "Heartbeat RTT" = some q → row[q]? = some v →
      (parseRow headers row).heartbeat_rtt = v) ∧
    (∀ q v, try_find_header headers "Cloud" = some q → row[q]? = some v →
      (parseRow headers row).cloud = v) ∧
    (∀ q v, try_find_header headers "Region" = some q → row[q]? = some v →
      (parseRow headers row).region = v) ∧
    (∀ q v, try_find_header headers "Zone" = some q → row[q]? = some v →
      (parseRow headers row).zone = v) ∧
    ∀ (doc : HNode) (hs : List String) (rs : List (List String)),
      find_table doc = some (hs, rs) →
        parse_clocks doc = rs.map (fun r => parseRow hs r) := by
  have hp := parseRow_eq headers row
  refine ⟨?_, ?_, ?_, ?_, ?_, ?_, ?_, ?_, ?_, ?_⟩
  · intro q v hq hv
    rw [hp]
    simp [parseRowPure, cellOrMissing, hq, hv]
  · intro q v hq hv
    rw [hp]
    simp [parseRowPure, cellOrMissing, hq, hv]
  · intro q v hq hv
    rw [hp]
    simp [parseRowPure, cellOrMissing, hq, hv]
  · intro q v hq hv
    rw [hp]
    simp [parseRowPure, cellOrMissing, hq, hv]
  · intro q v hq hv
    rw [hp]
    simp [parseRowPure, cellOrMissing, hq, hv]
  · intro q v hq hv
    rw [hp]
    simp [parseRowPure, cellOrMissing, hq, hv]
  · intro q v hq hv
    rw [hp]
    simp [parseRowPure, cellOrMissing, hq, hv]
  · intro q v hq hv
    rw [hp]
    simp [parseRowPure, cellOrMissing, hq, hv]
  · intro q v hq hv
    rw [hp]
    simp [parseRowPure, cellOrMissing, hq, hv]
  · intro doc hs rs h
    exact parse_clocks_of_find_table h

lemma latency_summary_eq (stored : List StoredClocks) (leader : String) :
    print_adhoc_latency stored leader false =
      (stored.filter (fun row => row.hostname_port == leader)).map
        (fun row => latencyLine leader row) := by
  induction stored with
  | nil => rfl
  | cons row rest ih =>
    simp only [print_adhoc_latency, List.flatMap_cons] at ih ⊢
    simp at ih ⊢
    by_cases hrow : row.hostname_port = leader
    · simp [List.filter_cons, hrow, ih]
    · simp [List.filter_cons, hrow, ih]

lemma latency_detail_eq (stored : List StoredClocks) (leader : String) :
    print_adhoc_latency stored leader true =
      stored.map (fun row => row.hostname_port ++ " " ++ latencyLine leader row) := by
  induction stored with
  | nil => rfl
  | cons row rest ih =>
    simp only [print_adhoc_latency, List.flatMap_cons] at ih ⊢
    simp at ih ⊢
    exact ih

/-- C8: in latency mode each record matching the rendering predicate is
printed as "leader -> first-token-of-server: RTT RTT (cloud region zone)";
in detail mode every record's line is additionally prefixed by its address
label. -/
theorem print_adhoc_latency_spec (stored : List StoredClocks) (leader : String) :
    print_adhoc_latency stored leader false =
      (stored.filter (fun row => row.hostname_port == leader)).map (fun row =>
        leader ++ " -> " ++ firstToken row.server ++ ": " ++ row.heartbeat_rtt ++
          " RTT (" ++ row.cloud ++ " " ++ row.region ++ " " ++ row.zone ++ ")") ∧
    print_adhoc_latency stored leader true =
      stored.map (fun row =>
        row.hostname_port ++ " " ++
          (leader ++ " -> " ++ firstToken row.server ++ ": " ++ row.heartbeat_rtt ++
            " RTT (" ++ row.cloud ++ " " ++ row.region ++ " " ++ row.zone ++ ")")) :=
  ⟨latency_summary_eq stored leader, latency_detail_eq stored leader⟩

lemma firstTokenAux_all_whitespace : ∀ {cs : List Char},
    (∀ c ∈ cs, c.isWhitespace = true) → firstTokenAux cs = [] := by
  intro cs
  induction cs with
  | nil => intro; rfl
  | cons c rest ih =>
    intro h
    rw [firstTokenAux, if_pos (h c (by simp))]
    exact ih (fun d hd => h d (by simp [hd]))

/-- C10: a record whose server field is empty or all whitespace renders in
latency mode without failing — the destination token printed after "-> " is
the empty string. -/
theorem latency_whitespace_server (leader : String) (row : StoredClocks)
    (h : row.server.toList.all Char.isWhitespace = true) :
    firstToken row.server = "" ∧
    latencyLine leader row = leader ++ " -> : " ++ row.heartbeat_rtt ++ " RTT (" ++
      row.cloud ++ " " ++ row.region ++ " " ++ row.zone ++ ")" := by
  have h1 : firstToken row.server = "" := by
    rw [firstToken, firstTokenAux_all_whitespace (List.all_eq_true.mp h)]
  refine ⟨h1, ?_⟩
  rw [latencyLine, h1, String.append_empty]
  have h2 : leader ++ " -> " ++ ": " = leader ++ " -> : " := by
    rw [String.append_assoc]
    exact congrArg (fun s => leader ++ s) rfl
  rw [h2]

/-- Witness for C10 at a concrete record whose server field is a blank. -/
theorem latency_whitespace_server_witness :
    firstToken (StoredClocks.mk "a:1" 0 " " "t" "u" "p" "h" "1ms" "c" "r" "z").server = "" ∧
    latencyLine "L:1" (StoredClocks.mk "a:1" 0 " " "t" "u" "p" "h" "1ms" "c" "r" "z") =
      "L:1" ++ " -> : " ++ "1ms" ++ " RTT (" ++ "c" ++ " " ++ "r" ++ " " ++ "z" ++ ")" :=
  latency_whitespace_server "L:1"
    (StoredClocks.mk "a:1" 0 " " "t" "u" "p" "h" "1ms" "c" "r" "z") (by decide)

end AllStoredClocks
